import Mathlib

set_option maxRecDepth 20000
set_option maxHeartbeats 1000000

/-!
Verification development for the survey-sentiment queue processor
(`src/lambda/handler.py`).

The Python handler is shallow-embedded below.  Strings are modelled as
`List Char` (a Python `str` is a sequence of Unicode code points), byte
strings as `List Nat` with every element below 256, and the two AWS
calls (`comprehend.detect_sentiment`, `dynamodb.put_item`) together with
`json.loads` are modelled as oracle functions supplied in an `Env`
record; every call actually issued is recorded in an effect trace.
Wall-clock time is modelled as one `DateTime` value (second granularity,
UTC) supplied in the environment; both `datetime.now` reads inside one
message are idealised to return that same instant.  Floating-point
confidence scores never influence control flow and are modelled as
integers.
-/

/-- A Python `str`: a sequence of Unicode code points. -/
abbrev Str := List Char

/-- Shorthand converting a Lean string literal to the `List Char` model. -/
def S (s : String) : Str := s.toList

/-- Whitespace set stripped by Python `str.strip()` (ASCII whitespace;
the further Unicode whitespace code points accepted by Python are not
needed by any property below). -/
def pyIsSpace (c : Char) : Bool :=
  c = ' ' || c = '\t' || c = '\n' || c = '\r' || c = '\x0b' || c = '\x0c'

/-- Python `str.strip()`: remove leading and trailing whitespace. -/
def pyStrip (s : Str) : Str :=
  ((s.dropWhile pyIsSpace).reverse.dropWhile pyIsSpace).reverse

/-- UTF-8 encoding of one code point (Python `str.encode('utf-8')`,
per character). -/
def utf8EncodeChar (c : Char) : List Nat :=
  let n := c.toNat
  if n < 0x80 then [n]
  else if n < 0x800 then [0xC0 + n / 64, 0x80 + n % 64]
  else if n < 0x10000 then
    [0xE0 + n / 4096, 0x80 + (n / 64) % 64, 0x80 + n % 64]
  else
    [0xF0 + n / 262144, 0x80 + (n / 4096) % 64, 0x80 + (n / 64) % 64,
      0x80 + n % 64]

/-- Python `text.encode('utf-8')`. -/
def utf8Encode (s : Str) : List Nat :=
  (s.map utf8EncodeChar).flatten

/-- The test of the `while` loop at handler.py:59:
`truncated[-1] & 0x80 and not (truncated[-1] & 0x40)`,
i.e. the byte is a UTF-8 continuation byte. -/
def isCont (b : Nat) : Bool :=
  (b &&& 0x80 != 0) && (b &&& 0x40 == 0)

/-- The `while` loop of `truncate_text_for_comprehend` (handler.py:59-60):
repeatedly drop the last byte while it is a continuation byte. -/
def dropTrailingCont (bs : List Nat) : List Nat :=
  (bs.reverse.dropWhile isCont).reverse

/-- Pending state of the incremental UTF-8 decoder: accumulated code
point bits, number of continuation bytes still required, and the allowed
range for the next byte (tight on the first continuation byte, per the
UTF-8 well-formedness rules Python's decoder enforces). -/
structure Pend where
  acc : Nat
  need : Nat
  lo : Nat
  hi : Nat
deriving DecidableEq

/-- Outcome of examining one byte in start state. -/
inductive StartR where
  | emit (c : Char)
  | pend (p : Pend)
  | skip
deriving DecidableEq

/-- Classify a byte seen in start state, as CPython's UTF-8 decoder does:
ASCII emits, a well-formed lead byte opens a multi-byte sequence, and
anything else (stray continuation byte, overlong lead `C0`/`C1`, or a
byte above `F4`) is invalid. -/
def classifyStart (b : Nat) : StartR :=
  if b < 0x80 then .emit (Char.ofNat b)
  else if b < 0xC2 then .skip
  else if b < 0xE0 then .pend ⟨b - 0xC0, 1, 0x80, 0xBF⟩
  else if b = 0xE0 then .pend ⟨0, 2, 0xA0, 0xBF⟩
  else if b = 0xED then .pend ⟨13, 2, 0x80, 0x9F⟩
  else if b < 0xF0 then .pend ⟨b - 0xE0, 2, 0x80, 0xBF⟩
  else if b = 0xF0 then .pend ⟨0, 3, 0x90, 0xBF⟩
  else if b < 0xF4 then .pend ⟨b - 0xF0, 3, 0x80, 0xBF⟩
  else if b = 0xF4 then .pend ⟨4, 3, 0x80, 0x8F⟩
  else .skip

/-- Is `b` acceptable as the next continuation byte of `p`? -/
def contOK (p : Pend) (b : Nat) : Bool :=
  p.lo ≤ b && b ≤ p.hi

/-- Incremental UTF-8 decoder with `errors='ignore'` semantics
(Python `bytes.decode('utf-8', errors='ignore')`): invalid or
incomplete sequences are dropped and decoding continues. -/
def decodeLoop : Option Pend → List Nat → List Char
  | _, [] => []
  | none, b :: bs =>
    match classifyStart b with
    | .emit c => c :: decodeLoop none bs
    | .pend p => decodeLoop (some p) bs
    | .skip => decodeLoop none bs
  | some p, b :: bs =>
    if contOK p b then
      if p.need = 1 then
        Char.ofNat (p.acc * 64 + (b - 0x80)) :: decodeLoop none bs
      else
        decodeLoop (some ⟨p.acc * 64 + (b - 0x80), p.need - 1, 0x80, 0xBF⟩) bs
    else
      match classifyStart b with
      | .emit c => c :: decodeLoop none bs
      | .pend p' => decodeLoop (some p') bs
      | .skip => decodeLoop none bs

/-- Python `bytes.decode('utf-8', errors='ignore')`. -/
def utf8DecodeIgnore (bs : List Nat) : Str :=
  decodeLoop none bs

/-- handler.py:14. -/
def COMPREHEND_MAX_BYTES : Nat := 5000

/-- handler.py:15. -/
def DEFAULT_LANGUAGE_CODE : Str := S "en"

/-- `truncate_text_for_comprehend` (handler.py:40-62).  The source's
default argument `max_bytes = COMPREHEND_MAX_BYTES` is passed explicitly
at the call sites below. -/
def truncate_text_for_comprehend (text : Str) (max_bytes : Nat) : Str :=
  let text_bytes := utf8Encode text
  if text_bytes.length ≤ max_bytes then text
  else utf8DecodeIgnore (dropTrailingCont (text_bytes.take max_bytes))

/-- The truncation-warning guard of `process_survey_message`
(handler.py:101-103): it compares the *byte* length of the truncated
text with `len(survey_text)`, which is the *character* count of the
original text. -/
def truncation_warned (survey_text : Str) : Bool :=
  (utf8Encode (truncate_text_for_comprehend survey_text
      COMPREHEND_MAX_BYTES)).length < survey_text.length

/-! ## Dates and times

`datetime.now(timezone.utc)` is modelled as a `DateTime` value carried in
the environment, at second granularity (the sub-second part of the clock
reading is idealised to zero, and the two `now` reads inside one message
are idealised to the same instant). -/

/-- A UTC wall-clock instant, as in Python's `datetime` (without the
microsecond field, see above). -/
structure DateTime where
  year : Nat
  month : Nat
  day : Nat
  hour : Nat
  minute : Nat
  second : Nat
deriving DecidableEq

/-- Gregorian leap-year rule (`calendar.isleap`). -/
def isLeap (y : Nat) : Bool :=
  (y % 4 = 0 && y % 100 ≠ 0) || y % 400 = 0

/-- Number of days of month `m` of year `y` (`calendar.monthrange(y, m)[1]`). -/
def daysInMonth (y m : Nat) : Nat :=
  if m = 2 then (if isLeap y then 29 else 28)
  else if m = 4 || m = 6 || m = 9 || m = 11 then 30
  else 31

/-- `dt + relativedelta(months=n)` for `n ≥ 0`, as `dateutil` computes it:
the month count is normalised into years plus months below twelve, the
month is advanced with wraparound into the following year, and the day is
clamped to the length of the resulting month. -/
def relativedeltaMonths (dt : DateTime) (months : Nat) : DateTime :=
  let ys := months / 12
  let ms := months % 12
  let m0 := dt.month + ms
  let y := if m0 > 12 then dt.year + ys + 1 else dt.year + ys
  let m := if m0 > 12 then m0 - 12 else m0
  { dt with year := y, month := m, day := min dt.day (daysInMonth y m) }

def daysInYear (y : Nat) : Nat :=
  if isLeap y then 366 else 365

/-- Days from 1970-01-01 to the first day of year `y` (for `y ≥ 1970`). -/
def daysBeforeYear (y : Nat) : Nat :=
  ((List.range (y - 1970)).map (fun i => daysInYear (1970 + i))).sum

/-- Days from the first day of year `y` to the first day of its month `m`. -/
def daysBeforeMonth (y m : Nat) : Nat :=
  ((List.range (m - 1)).map (fun i => daysInMonth y (i + 1))).sum

/-- `datetime.timestamp()` for an aware UTC datetime at or after 1970:
Unix epoch seconds under the proleptic Gregorian calendar. -/
def DateTime.timestamp (dt : DateTime) : Nat :=
  86400 * (daysBeforeYear dt.year + daysBeforeMonth dt.year dt.month
      + (dt.day - 1))
    + 3600 * dt.hour + 60 * dt.minute + dt.second

/-- `calculate_expires_at` (handler.py:27-37): twelve months from the
current instant, as Unix epoch seconds. -/
def calculate_expires_at (now : DateTime) : Nat :=
  DateTime.timestamp (relativedeltaMonths now 12)

/-- Decimal digits of a natural number. -/
def natStr (n : Nat) : Str := (Nat.repr n).toList

/-- Left-pad with zeroes to the given width. -/
def padNum (width n : Nat) : Str :=
  List.replicate (width - (natStr n).length) '0' ++ natStr n

/-- `datetime.isoformat()` for an aware UTC instant with zero
microseconds: `YYYY-MM-DDTHH:MM:SS+00:00`. -/
def DateTime.isoformat (dt : DateTime) : Str :=
  padNum 4 dt.year ++ S "-" ++ padNum 2 dt.month ++ S "-" ++ padNum 2 dt.day
    ++ S "T" ++ padNum 2 dt.hour ++ S ":" ++ padNum 2 dt.minute
    ++ S ":" ++ padNum 2 dt.second ++ S "+00:00"

/-- Well-formed UTC instants in the range the model's epoch arithmetic
covers. -/
def DateTime.Valid (dt : DateTime) : Prop :=
  1970 ≤ dt.year ∧ 1 ≤ dt.month ∧ dt.month ≤ 12 ∧ 1 ≤ dt.day ∧
    dt.day ≤ daysInMonth dt.year dt.month ∧ dt.hour < 24 ∧
    dt.minute < 60 ∧ dt.second < 60

instance (dt : DateTime) : Decidable dt.Valid := by
  unfold DateTime.Valid; infer_instance

/-! ## JSON values and Python dictionary access -/

/-- A parsed JSON value (`json.loads` output).  Numbers are modelled as
integers: no verified property depends on fractional numeric payloads. -/
inductive JValue where
  | jnull
  | jbool (b : Bool)
  | jnum (n : Int)
  | jstr (s : Str)
  | jarr (xs : List JValue)
  | jobj (fields : List (Str × JValue))

/-- `dict.get(key)` on a parsed JSON object, first binding wins (Python
dicts produced by `json.loads` have unique keys). -/
def jlookup : List (Str × JValue) → Str → Option JValue
  | [], _ => none
  | (k, v) :: rest, key => if k = key then some v else jlookup rest key

/-- Python truthiness of a value possibly absent from the dict
(`not survey_id`): `None`, `False`, `0`, and empty containers and
strings are falsy. -/
def jTruthy : Option JValue → Bool
  | none => false
  | some .jnull => false
  | some (.jbool b) => b
  | some (.jnum n) => n ≠ 0
  | some (.jstr s) => !s.isEmpty
  | some (.jarr xs) => !xs.isEmpty
  | some (.jobj fs) => !fs.isEmpty

/-- Decimal digits of an integer. -/
def intStr (n : Int) : Str := (Int.repr n).toList

mutual

/-- Python `repr` of a JSON value (shape only: string escaping inside
`repr` is not modelled; no verified property inspects it). -/
def pyRepr : JValue → Str
  | .jnull => S "None"
  | .jbool true => S "True"
  | .jbool false => S "False"
  | .jnum n => intStr n
  | .jstr s => Char.ofNat 39 :: (s ++ [Char.ofNat 39])
  | .jarr xs => '[' :: (pyReprList xs ++ [']'])
  | .jobj fs => Char.ofNat 0x7b :: (pyReprObj fs ++ [Char.ofNat 0x7d])

def pyReprList : List JValue → Str
  | [] => []
  | [x] => pyRepr x
  | x :: y :: xs => pyRepr x ++ S ", " ++ pyReprList (y :: xs)

def pyReprObj : List (Str × JValue) → Str
  | [] => []
  | [(k, v)] => pyRepr (.jstr k) ++ S ": " ++ pyRepr v
  | (k, v) :: y :: xs => pyRepr (.jstr k) ++ S ": " ++ pyRepr v ++ S ", "
      ++ pyReprObj (y :: xs)

end

/-- Python `str(v)`: strings convert to themselves, everything else to
its `repr`. -/
def pyStr (v : JValue) : Str :=
  match v with
  | .jstr s => s
  | v => pyRepr v

/-- `survey_data.get('surveyText', '').strip()` (handler.py:91): absent
field defaults to the empty string; a present non-string value has no
`.strip` attribute, so Python raises `AttributeError`. -/
def getStrip (v : Option JValue) : Except Str Str :=
  match v with
  | none => .ok (pyStrip [])
  | some (.jstr s) => .ok (pyStrip s)
  | some _ => .error (S "AttributeError: object has no attribute strip")

/-- Python `dict.get(k, 0)` over the sentiment-score map. -/
def lookupD (m : List (Str × Int)) (k : Str) (d : Int) : Int :=
  match m with
  | [] => d
  | (k', v) :: rest => if k' = k then v else lookupD rest k d

/-! ## The AWS collaborators and the per-message pipeline -/

/-- Failure of a boto3 call: `ClientError` with a provider error code,
or any other exception. -/
inductive AwsFail where
  | client (code : Str) (msg : Str)
  | other (msg : Str)
deriving DecidableEq

/-- `comprehend.detect_sentiment` response: a sentiment label and the
`SentimentScore` map. -/
structure CompResp where
  sentiment : Str
  scores : List (Str × Int)
deriving DecidableEq

/-- The DynamoDB item assembled at handler.py:139-154.  Each field holds
the payload of the corresponding typed attribute value (`'S'` for the
string fields, `'N'` numeric strings for the scores and `expires_at`,
and the `sentimentScore` map flattened into its four entries). -/
structure DynamoItem where
  id : Str
  customerId : Str
  surveyText : Str
  sentiment : Str
  scorePositive : Str
  scoreNegative : Str
  scoreNeutral : Str
  scoreMixed : Str
  created_at : Str
  expires_at : Str
deriving DecidableEq

/-- Externally visible actions of one handler invocation, in order. -/
inductive Effect where
  | warnTrunc (origLen truncBytes : Nat)
  | comprehendCall (text : Str) (lang : Str)
  | dynamoPut (table : Str) (item : DynamoItem)
deriving DecidableEq

/-- The error taxonomy of the pipeline, mirroring the exception classes
the handler distinguishes: `json.JSONDecodeError`, `ValueError`,
`botocore ClientError`, and any other exception. -/
inductive PError where
  | jsonDecode (msg : Str)
  | validation (msg : Str)
  | client (code : Str) (msg : Str)
  | unexpected (msg : Str)
deriving DecidableEq

/-- The success dictionary returned at handler.py:166-171. -/
structure PSuccess where
  survey_id : JValue
  sentiment : Str
  confidence : Int

/-- The pipeline's environment: the JSON parser and the two AWS clients
as oracle functions, the target table name, and the current instant. -/
structure Env where
  parse : Str → Except Str JValue
  comprehendO : Str → Except AwsFail CompResp
  dynamoO : DynamoItem → Except AwsFail Unit
  tableName : Str
  now : DateTime

/-- Lines 100-181 of `process_survey_message`: truncation and warning,
the Comprehend call, timestamping, item assembly, and the DynamoDB
write.  Returns the outcome together with the trace of effects
performed. -/
def classifyAndStore (env : Env) (survey_id customer_id : JValue)
    (survey_text : Str) : Except PError PSuccess × List Effect :=
  let original_length := survey_text.length
  let survey_text_truncated :=
    truncate_text_for_comprehend survey_text COMPREHEND_MAX_BYTES
  let warnEffs :=
    if truncation_warned survey_text then
      [Effect.warnTrunc original_length
        (utf8Encode survey_text_truncated).length]
    else []
  let effs1 := warnEffs
    ++ [Effect.comprehendCall survey_text_truncated DEFAULT_LANGUAGE_CODE]
  match env.comprehendO survey_text_truncated with
  | .error (.client code m) => (.error (.client code m), effs1)
  | .error (.other m) => (.error (.unexpected m), effs1)
  | .ok resp =>
    let sentiment := resp.sentiment
    let sentiment_scores := resp.scores
    let expires_at := calculate_expires_at env.now
    let created_at := env.now.isoformat
    let item : DynamoItem :=
      { id := pyStr survey_id
        customerId := pyStr customer_id
        surveyText := survey_text
        sentiment := sentiment
        scorePositive := intStr (lookupD sentiment_scores (S "Positive") 0)
        scoreNegative := intStr (lookupD sentiment_scores (S "Negative") 0)
        scoreNeutral := intStr (lookupD sentiment_scores (S "Neutral") 0)
        scoreMixed := intStr (lookupD sentiment_scores (S "Mixed") 0)
        created_at := created_at
        expires_at := natStr expires_at }
    let effs2 := effs1 ++ [Effect.dynamoPut env.tableName item]
    match env.dynamoO item with
    | .error (.client code m) => (.error (.client code m), effs2)
    | .error (.other m) => (.error (.unexpected m), effs2)
    | .ok _ =>
      (.ok { survey_id := survey_id, sentiment := sentiment,
             confidence := lookupD sentiment_scores sentiment 0 }, effs2)

/-- `process_survey_message` (handler.py:65-191): parse the body,
validate the required fields (`surveyText` is stripped *before* the
`id`/`customerId` checks, exactly as in the source), then classify and
store.  The inner `except` blocks of the source only log and re-raise,
so they do not change the returned outcome. -/
def process_survey_message (env : Env) (message_body : Str) :
    Except PError PSuccess × List Effect :=
  match env.parse message_body with
  | .error e => (.error (.jsonDecode e), [])
  | .ok survey_data =>
    match survey_data with
    | .jobj fields =>
      let survey_id := jlookup fields (S "id")
      let customer_id := jlookup fields (S "customerId")
      match getStrip (jlookup fields (S "surveyText")) with
      | .error m => (.error (.unexpected m), [])
      | .ok survey_text =>
        if jTruthy survey_id = false then
          (.error (.validation (S "Survey 'id' is required")), [])
        else if jTruthy customer_id = false then
          (.error (.validation (S "Survey 'customerId' is required")), [])
        else if survey_text.isEmpty then
          (.error (.validation
            (S "Survey 'surveyText' is required and cannot be empty")), [])
        else
          classifyAndStore env (survey_id.getD .jnull)
            (customer_id.getD .jnull) survey_text
    | _ =>
      (.error (.unexpected (S "AttributeError: object has no attribute get")),
        [])

/-- One SQS record of the triggering event: `messageId` and `body`
(either may be absent). -/
structure SQSRecord where
  messageId : Option Str
  body : Option Str

/-- The body of the batch loop of `main` (handler.py:212-247), iterated
over the records: an empty (or absent) body is counted as a failure
without invoking the pipeline; otherwise every error category raised by
the pipeline is caught and counted as a failure, and a success increments
the success counter.  Returns (processed, failed, effect trace). -/
def mainLoop (env : Env) : List SQSRecord → Nat × Nat × List Effect
  | [] => (0, 0, [])
  | record :: rest =>
    let acc := mainLoop env rest
    let message_body := record.body.getD []
    if message_body.isEmpty then
      (acc.1, acc.2.1 + 1, acc.2.2)
    else
      match process_survey_message env message_body with
      | (.ok _, effs) => (acc.1 + 1, acc.2.1, effs ++ acc.2.2)
      | (.error _, effs) => (acc.1, acc.2.1 + 1, effs ++ acc.2.2)

/-- The handler's return value (handler.py:255-262).  The Python body is
`json.dumps` of the three counts; it is modelled structurally. -/
structure HandlerResponse where
  statusCode : Nat
  processed : Nat
  failed : Nat
  total : Nat
deriving DecidableEq

namespace Handler

/-- `main` (handler.py:194-262): process every record of the event and
return the fixed success status with the outcome counts.  (Namespaced:
Lean reserves the top-level name `main` for executables.) -/
def main (env : Env) (records : List SQSRecord) :
    HandlerResponse × List Effect :=
  let acc := mainLoop env records
  ({ statusCode := 200, processed := acc.1, failed := acc.2.1,
     total := records.length }, acc.2.2)

end Handler

/-- Does the batch loop count this record as a failure?  (Empty body, or
the pipeline raised.) -/
def recordFails (env : Env) (record : SQSRecord) : Bool :=
  (record.body.getD []).isEmpty ||
    match process_survey_message env (record.body.getD []) with
    | (.ok _, _) => false
    | (.error _, _) => true

/-- The `Error` payload of an `Except`, for stating outcomes without
comparing success payloads. -/
def resultErr {α β : Type} : Except α β → Option α
  | .error e => some e
  | .ok _ => none

/-- Is the outcome a success? -/
def isOkB {α β : Type} : Except α β → Bool
  | .error _ => false
  | .ok _ => true

/-- The DynamoDB items written in an effect trace. -/
def putItems (effs : List Effect) : List DynamoItem :=
  effs.filterMap fun e =>
    match e with
    | .dynamoPut _ item => some item
    | _ => none

/-- The texts sent to Comprehend in an effect trace. -/
def comprehendTexts (effs : List Effect) : List Str :=
  effs.filterMap fun e =>
    match e with
    | .comprehendCall text _ => some text
    | _ => none

/-! ## Concrete fixtures used by witnesses and counterexamples -/

/-- A fixed Comprehend response. -/
def respPos : CompResp :=
  { sentiment := S "POSITIVE", scores := [(S "Positive", 1)] }

/-- An environment whose parser returns `v` for every body, whose AWS
calls succeed, and whose clock reads 2024-01-31T10:00:00Z. -/
def okEnv (v : JValue) : Env :=
  { parse := fun _ => .ok v
    comprehendO := fun _ => .ok respPos
    dynamoO := fun _ => .ok ()
    tableName := S "survey-table"
    now := { year := 2024, month := 1, day := 31, hour := 10,
             minute := 0, second := 0 } }

/-- A fully valid survey message. -/
def msgOK : JValue :=
  .jobj [(S "id", .jstr (S "s1")), (S "customerId", .jstr (S "c1")),
    (S "surveyText", .jstr (S "Great service!"))]

/-- A valid message whose survey text carries surrounding whitespace. -/
def msgPadded : JValue :=
  .jobj [(S "id", .jstr (S "s1")), (S "customerId", .jstr (S "c1")),
    (S "surveyText", .jstr (S " hi "))]

/-- A message with no `id` field. -/
def msgNoId : JValue :=
  .jobj [(S "customerId", .jstr (S "c1")),
    (S "surveyText", .jstr (S "hello"))]

/-- A body that is valid JSON but not an object. -/
def msgArray : JValue := .jarr [.jnum 1, .jnum 2]

/-- A record with the given body string present. -/
def recWith (body : String) : SQSRecord :=
  { messageId := some (S "m1"), body := some (S body) }

/-- A record whose `body` key is absent. -/
def recNoBody : SQSRecord := { messageId := some (S "m2"), body := none }

/-- U+00E9, a two-byte character in UTF-8 (`0xC3 0xA9`). -/
def eAcute : Char := 'é'

/-- Does an effect trace contain the truncation warning? -/
def hasWarn (effs : List Effect) : Bool :=
  effs.any fun e =>
    match e with
    | .warnTrunc _ _ => true
    | _ => false

/-! ## Properties of the UTF-8 model -/

theorem isCont_eq {b : Nat} (hb : b < 256) :
    isCont b = decide (0x80 ≤ b ∧ b < 0xC0) := by
  have h : ∀ x : Fin 256, isCont x.val = decide (0x80 ≤ x.val ∧ x.val < 0xC0) := by
    decide
  exact h ⟨b, hb⟩

theorem char_toNat_valid (c : Char) :
    c.toNat < 0xD800 ∨ (0xDFFF < c.toNat ∧ c.toNat < 0x110000) := c.valid

theorem utf8EncodeChar_eq_one {c : Char} (h : c.toNat < 0x80) :
    utf8EncodeChar c = [c.toNat] := by
  unfold utf8EncodeChar
  dsimp only
  split_ifs <;> first | rfl | (exfalso; omega)

theorem utf8EncodeChar_eq_two {c : Char} (h1 : 0x80 ≤ c.toNat)
    (h2 : c.toNat < 0x800) :
    utf8EncodeChar c = [0xC0 + c.toNat / 64, 0x80 + c.toNat % 64] := by
  unfold utf8EncodeChar
  dsimp only
  split_ifs <;> first | rfl | (exfalso; omega)

theorem utf8EncodeChar_eq_three {c : Char} (h1 : 0x800 ≤ c.toNat)
    (h2 : c.toNat < 0x10000) :
    utf8EncodeChar c = [0xE0 + c.toNat / 4096, 0x80 + (c.toNat / 64) % 64,
      0x80 + c.toNat % 64] := by
  unfold utf8EncodeChar
  dsimp only
  split_ifs <;> first | rfl | (exfalso; omega)

theorem utf8EncodeChar_eq_four {c : Char} (h1 : 0x10000 ≤ c.toNat) :
    utf8EncodeChar c = [0xF0 + c.toNat / 262144, 0x80 + (c.toNat / 4096) % 64,
      0x80 + (c.toNat / 64) % 64, 0x80 + c.toNat % 64] := by
  unfold utf8EncodeChar
  dsimp only
  split_ifs <;> first | rfl | (exfalso; omega)

theorem utf8Encode_cons (c : Char) (cs : Str) :
    utf8Encode (c :: cs) = utf8EncodeChar c ++ utf8Encode cs := by
  simp [utf8Encode]

theorem utf8Encode_append (a b : Str) :
    utf8Encode (a ++ b) = utf8Encode a ++ utf8Encode b := by
  simp [utf8Encode]

theorem contOK_true {p : Pend} {b : Nat} (h1 : p.lo ≤ b) (h2 : b ≤ p.hi) :
    contOK p b = true := by
  simp only [contOK, Bool.and_eq_true, decide_eq_true_eq]
  exact ⟨h1, h2⟩

theorem decodeLoop_ascii {b : Nat} (h : b < 0x80) (w : List Nat) :
    decodeLoop none (b :: w) = Char.ofNat b :: decodeLoop none w := by
  have e1 : classifyStart b = .emit (Char.ofNat b) := by
    unfold classifyStart
    split_ifs <;> first | rfl | (exfalso; omega)
  simp [decodeLoop, e1]

theorem decodeLoop_two {b0 b1 : Nat} (h0 : 0xC2 ≤ b0) (h0' : b0 < 0xE0)
    (h1 : 0x80 ≤ b1) (h1' : b1 ≤ 0xBF) (w : List Nat) :
    decodeLoop none (b0 :: b1 :: w)
      = Char.ofNat ((b0 - 0xC0) * 64 + (b1 - 0x80)) :: decodeLoop none w := by
  have e1 : classifyStart b0 = .pend ⟨b0 - 0xC0, 1, 0x80, 0xBF⟩ := by
    unfold classifyStart
    split_ifs <;> first | rfl | (exfalso; omega)
  have e2 : contOK ⟨b0 - 0xC0, 1, 0x80, 0xBF⟩ b1 = true := contOK_true h1 h1'
  simp [decodeLoop, e1, e2]


theorem decodeLoop_none_pend {b : Nat} {p : Pend}
    (h : classifyStart b = .pend p) (bs : List Nat) :
    decodeLoop none (b :: bs) = decodeLoop (some p) bs := by
  simp only [decodeLoop, h]

theorem decodeLoop_some_more {p : Pend} {b : Nat} (hc : contOK p b = true)
    (hn : p.need ≠ 1) (bs : List Nat) :
    decodeLoop (some p) (b :: bs)
      = decodeLoop (some ⟨p.acc * 64 + (b - 0x80), p.need - 1, 0x80, 0xBF⟩)
          bs := by
  simp only [decodeLoop, hc, if_true, if_neg hn]

theorem decodeLoop_some_done {p : Pend} {b : Nat} (hc : contOK p b = true)
    (hn : p.need = 1) (bs : List Nat) :
    decodeLoop (some p) (b :: bs)
      = Char.ofNat (p.acc * 64 + (b - 0x80)) :: decodeLoop none bs := by
  simp only [decodeLoop, hc, if_true, if_pos hn]

theorem decodeLoop_three {b0 b1 b2 : Nat} (h0 : 0xE0 ≤ b0) (h0' : b0 < 0xF0)
    (h1 : 0x80 ≤ b1) (h1' : b1 ≤ 0xBF) (hE0 : b0 = 0xE0 → 0xA0 ≤ b1)
    (hED : b0 = 0xED → b1 ≤ 0x9F)
    (h2 : 0x80 ≤ b2) (h2' : b2 ≤ 0xBF) (w : List Nat) :
    decodeLoop none (b0 :: b1 :: b2 :: w)
      = Char.ofNat (((b0 - 0xE0) * 64 + (b1 - 0x80)) * 64 + (b2 - 0x80))
        :: decodeLoop none w := by
  have hstart : ∃ lo hi, classifyStart b0 = .pend ⟨b0 - 0xE0, 2, lo, hi⟩
      ∧ lo ≤ b1 ∧ b1 ≤ hi := by
    rcases eq_or_ne b0 0xE0 with hb | hb0
    · subst hb
      exact ⟨0xA0, 0xBF, by decide, hE0 rfl, h1'⟩
    rcases eq_or_ne b0 0xED with hb | hbED
    · subst hb
      exact ⟨0x80, 0x9F, by decide, h1, hED rfl⟩
    · refine ⟨0x80, 0xBF, ?_, h1, h1'⟩
      unfold classifyStart
      split_ifs <;> first | rfl | (exfalso; omega)
  obtain ⟨lo, hi, e1, hlo, hhi⟩ := hstart
  rw [decodeLoop_none_pend e1]
  rw [decodeLoop_some_more (contOK_true hlo hhi) (by norm_num)]
  rw [decodeLoop_some_done (contOK_true h2 h2') rfl]

theorem decodeLoop_four {b0 b1 b2 b3 : Nat} (h0 : 0xF0 ≤ b0) (h0' : b0 ≤ 0xF4)
    (h1 : 0x80 ≤ b1) (h1' : b1 ≤ 0xBF) (hF0 : b0 = 0xF0 → 0x90 ≤ b1)
    (hF4 : b0 = 0xF4 → b1 ≤ 0x8F)
    (h2 : 0x80 ≤ b2) (h2' : b2 ≤ 0xBF) (h3 : 0x80 ≤ b3) (h3' : b3 ≤ 0xBF)
    (w : List Nat) :
    decodeLoop none (b0 :: b1 :: b2 :: b3 :: w)
      = Char.ofNat ((((b0 - 0xF0) * 64 + (b1 - 0x80)) * 64 + (b2 - 0x80)) * 64
          + (b3 - 0x80)) :: decodeLoop none w := by
  have hstart : ∃ lo hi, classifyStart b0 = .pend ⟨b0 - 0xF0, 3, lo, hi⟩
      ∧ lo ≤ b1 ∧ b1 ≤ hi := by
    rcases eq_or_ne b0 0xF0 with hb | hbF0
    · subst hb
      exact ⟨0x90, 0xBF, by decide, hF0 rfl, h1'⟩
    rcases eq_or_ne b0 0xF4 with hb | hbF4
    · subst hb
      exact ⟨0x80, 0x8F, by decide, h1, hF4 rfl⟩
    · refine ⟨0x80, 0xBF, ?_, h1, h1'⟩
      unfold classifyStart
      split_ifs <;> first | rfl | (exfalso; omega)
  obtain ⟨lo, hi, e1, hlo, hhi⟩ := hstart
  rw [decodeLoop_none_pend e1]
  rw [decodeLoop_some_more (contOK_true hlo hhi) (by norm_num)]
  rw [decodeLoop_some_more (contOK_true h2 h2') (by norm_num)]
  rw [decodeLoop_some_done (contOK_true h3 h3') rfl]

/-- Decoding a validly encoded character followed by anything emits that
character and continues. -/
theorem decodeLoop_encodeChar (c : Char) (w : List Nat) :
    decodeLoop none (utf8EncodeChar c ++ w) = c :: decodeLoop none w := by
  have hv := char_toNat_valid c
  rcases Nat.lt_or_ge c.toNat 0x80 with h | h
  · rw [utf8EncodeChar_eq_one h, List.cons_append, List.nil_append,
      decodeLoop_ascii h, Char.ofNat_toNat]
  rcases Nat.lt_or_ge c.toNat 0x800 with h' | h'
  · rw [utf8EncodeChar_eq_two h h', List.cons_append, List.cons_append,
      List.nil_append, decodeLoop_two (by omega) (by omega) (by omega)
        (by omega)]
    have e : (0xC0 + c.toNat / 64 - 0xC0) * 64 + (0x80 + c.toNat % 64 - 0x80)
        = c.toNat := by omega
    rw [e, Char.ofNat_toNat]
  rcases Nat.lt_or_ge c.toNat 0x10000 with h'' | h''
  · rw [utf8EncodeChar_eq_three h' h'', List.cons_append, List.cons_append,
      List.cons_append, List.nil_append,
      decodeLoop_three (by omega) (by omega) (by omega) (by omega)
        (fun hE0 => by omega) (fun hED => by omega) (by omega) (by omega)]
    have e : ((0xE0 + c.toNat / 4096 - 0xE0) * 64
          + (0x80 + (c.toNat / 64) % 64 - 0x80)) * 64
          + (0x80 + c.toNat % 64 - 0x80) = c.toNat := by omega
    rw [e, Char.ofNat_toNat]
  · rw [utf8EncodeChar_eq_four h'', List.cons_append, List.cons_append,
      List.cons_append, List.cons_append, List.nil_append,
      decodeLoop_four (by omega) (by omega) (by omega) (by omega)
        (fun hF0 => by omega) (fun hF4 => by omega) (by omega) (by omega)
        (by omega) (by omega)]
    have e : (((0xF0 + c.toNat / 262144 - 0xF0) * 64
          + (0x80 + (c.toNat / 4096) % 64 - 0x80)) * 64
          + (0x80 + (c.toNat / 64) % 64 - 0x80)) * 64
          + (0x80 + c.toNat % 64 - 0x80) = c.toNat := by omega
    rw [e, Char.ofNat_toNat]

/-- Decoding a validly encoded string followed by anything yields that
string and continues. -/
theorem decodeLoop_encode_append (s : Str) (w : List Nat) :
    decodeLoop none (utf8Encode s ++ w) = s ++ decodeLoop none w := by
  induction s with
  | nil => simp [utf8Encode]
  | cons c cs ih =>
    rw [utf8Encode_cons, List.append_assoc, decodeLoop_encodeChar, ih,
      List.cons_append]

/-- Round trip: the canonical UTF-8 encoding of a string decodes to the
string itself. -/
theorem utf8DecodeIgnore_encode (s : Str) :
    utf8DecodeIgnore (utf8Encode s) = s := by
  have h := decodeLoop_encode_append s []
  simpa [utf8DecodeIgnore, decodeLoop] using h

theorem isCont_false_of {b : Nat} (hb : b < 256) (h : b < 0x80 ∨ 0xC0 ≤ b) :
    isCont b = false := by
  rw [isCont_eq hb]
  simp only [decide_eq_false_iff_not]
  omega

theorem isCont_true_of {b : Nat} (h1 : 0x80 ≤ b) (h2 : b < 0xC0) :
    isCont b = true := by
  rw [isCont_eq (by omega)]
  simp only [decide_eq_true_eq]
  omega

/-- Shape of a character's UTF-8 encoding: a non-continuation head byte
followed by continuation bytes; the head is the code point itself for
ASCII, and a proper lead byte in `[C2, F4]` otherwise. -/
theorem utf8EncodeChar_shape (c : Char) :
    ∃ b0 t, utf8EncodeChar c = b0 :: t ∧ isCont b0 = false ∧
      (∀ b ∈ t, isCont b = true) ∧
      (t = [] → b0 = c.toNat ∧ c.toNat < 0x80) ∧
      (t ≠ [] → 0xC2 ≤ b0 ∧ b0 ≤ 0xF4) := by
  have hv := char_toNat_valid c
  rcases Nat.lt_or_ge c.toNat 0x80 with h | h
  · refine ⟨c.toNat, [], utf8EncodeChar_eq_one h,
      isCont_false_of (by omega) (by omega), by simp, fun _ => ⟨rfl, h⟩,
      fun hne => absurd rfl hne⟩
  rcases Nat.lt_or_ge c.toNat 0x800 with h' | h'
  · refine ⟨0xC0 + c.toNat / 64, [0x80 + c.toNat % 64],
      utf8EncodeChar_eq_two h h',
      isCont_false_of (by omega) (by omega), ?_, by simp, fun _ => by omega⟩
    intro b hb
    simp only [List.mem_singleton] at hb
    subst hb
    exact isCont_true_of (by omega) (by omega)
  rcases Nat.lt_or_ge c.toNat 0x10000 with h'' | h''
  · refine ⟨0xE0 + c.toNat / 4096,
      [0x80 + (c.toNat / 64) % 64, 0x80 + c.toNat % 64],
      utf8EncodeChar_eq_three h' h'',
      isCont_false_of (by omega) (by omega), ?_, by simp, fun _ => by omega⟩
    intro b hb
    simp only [List.mem_cons, List.mem_singleton, List.not_mem_nil,
      or_false] at hb
    rcases hb with hb | hb <;> subst hb <;>
      exact isCont_true_of (by omega) (by omega)
  · refine ⟨0xF0 + c.toNat / 262144,
      [0x80 + (c.toNat / 4096) % 64, 0x80 + (c.toNat / 64) % 64,
        0x80 + c.toNat % 64],
      utf8EncodeChar_eq_four h'',
      isCont_false_of (by omega) (by omega), ?_, by simp, fun _ => by omega⟩
    intro b hb
    simp only [List.mem_cons, List.mem_singleton, List.not_mem_nil,
      or_false] at hb
    rcases hb with hb | hb | hb <;> subst hb <;>
      exact isCont_true_of (by omega) (by omega)

theorem dropTrailingCont_eq_nil_iff {v : List Nat} :
    dropTrailingCont v = [] ↔ ∀ b ∈ v, isCont b = true := by
  unfold dropTrailingCont
  rw [List.reverse_eq_nil_iff, List.dropWhile_eq_nil_iff]
  constructor
  · intro h b hb
    exact h b (List.mem_reverse.mpr hb)
  · intro h b hb
    exact h b (List.mem_reverse.mp hb)

theorem dropTrailingCont_append {u v : List Nat}
    (hv : dropTrailingCont v ≠ []) :
    dropTrailingCont (u ++ v) = u ++ dropTrailingCont v := by
  have hv' : (List.dropWhile isCont v.reverse).isEmpty = false := by
    rw [List.isEmpty_eq_false]
    intro h
    exact hv (by unfold dropTrailingCont; rw [h]; rfl)
  unfold dropTrailingCont
  rw [List.reverse_append, List.dropWhile_append, hv']
  simp only [Bool.false_eq_true, if_false]
  rw [List.reverse_append, List.reverse_reverse]

theorem dropTrailingCont_lead_conts {b0 : Nat} {t : List Nat}
    (hb0 : isCont b0 = false) (ht : ∀ b ∈ t, isCont b = true) :
    dropTrailingCont (b0 :: t) = [b0] := by
  have h1 : List.dropWhile isCont t.reverse = [] := by
    rw [List.dropWhile_eq_nil_iff]
    intro b hb
    exact ht b (List.mem_reverse.mp hb)
  unfold dropTrailingCont
  rw [List.reverse_cons, List.dropWhile_append, h1]
  simp [List.dropWhile_cons, hb0]

theorem decodeLoop_lead_nil {b : Nat} (h1 : 0xC2 ≤ b) (h2 : b ≤ 0xF4) :
    decodeLoop none [b] = [] := by
  obtain ⟨p, hp⟩ : ∃ p, classifyStart b = .pend p := by
    unfold classifyStart
    split_ifs <;> first | exact ⟨_, rfl⟩ | (exfalso; omega)
  rw [decodeLoop_none_pend hp]
  rfl

theorem dropTrailingCont_take_encode_ne {cs : Str} {m : Nat} (hcs : cs ≠ [])
    (hm : 1 ≤ m) : dropTrailingCont ((utf8Encode cs).take m) ≠ [] := by
  cases cs with
  | nil => exact absurd rfl hcs
  | cons c cs' =>
    obtain ⟨b0, t, he, hb0, ht, hone, hmulti⟩ := utf8EncodeChar_shape c
    intro h
    rw [dropTrailingCont_eq_nil_iff] at h
    have hmem : b0 ∈ (utf8Encode (c :: cs')).take m := by
      rw [utf8Encode_cons, he, List.cons_append]
      cases m with
      | zero => omega
      | succ m' =>
        rw [List.take_succ_cons]
        exact List.mem_cons_self b0 _
    have := h b0 hmem
    rw [hb0] at this
    exact Bool.false_ne_true this

/-- Key invariant of the truncation path: taking any byte prefix of a
string's UTF-8 encoding, stripping trailing continuation bytes, and
decoding with `errors='ignore'` yields a character prefix of the string
whose own encoding fits in the byte budget. -/
theorem decode_take_spec (s : Str) : ∀ n : Nat,
    ∃ k, utf8DecodeIgnore (dropTrailingCont ((utf8Encode s).take n)) = s.take k
      ∧ (utf8Encode (s.take k)).length ≤ n := by
  induction s with
  | nil =>
    intro n
    refine ⟨0, ?_, by simp [utf8Encode]⟩
    simp [utf8Encode, utf8DecodeIgnore, dropTrailingCont, decodeLoop]
  | cons c cs ih =>
    intro n
    obtain ⟨b0, t, he, hb0, ht, hone, hmulti⟩ := utf8EncodeChar_shape c
    have hL : (utf8EncodeChar c).length = t.length + 1 := by rw [he]; rfl
    rcases Nat.lt_or_ge n (utf8EncodeChar c).length with hn | hn
    · -- the byte budget ends inside the first character
      refine ⟨0, ?_, by simp [utf8Encode]⟩
      rw [utf8Encode_cons, List.take_append_eq_append_take]
      have h0 : n - (utf8EncodeChar c).length = 0 := by omega
      rw [h0, List.take_zero, List.append_nil]
      cases n with
      | zero => simp [utf8DecodeIgnore, decodeLoop, dropTrailingCont]
      | succ n' =>
        have htne : t ≠ [] := by
          intro h
          rw [h] at hL
          simp at hL
          omega
        obtain ⟨hc2, hf4⟩ := hmulti htne
        rw [he, List.take_succ_cons]
        rw [dropTrailingCont_lead_conts hb0
          (fun b hb => ht b (List.take_subset n' t hb))]
        rw [List.take_zero]
        exact decodeLoop_lead_nil hc2 hf4
    · -- the whole first character fits
      rw [utf8Encode_cons, List.take_append_eq_append_take,
        List.take_of_length_le hn]
      by_cases hu0 : (utf8Encode cs).take (n - (utf8EncodeChar c).length) = []
      · rw [hu0, List.append_nil]
        by_cases htnil : t = []
        · -- one-byte character, fully kept
          obtain ⟨hb0n, hlt⟩ := hone htnil
          refine ⟨1, ?_, ?_⟩
          · rw [he, htnil, dropTrailingCont_lead_conts hb0 (by simp)]
            unfold utf8DecodeIgnore
            rw [decodeLoop_ascii (by omega : b0 < 0x80)]
            rw [hb0n, Char.ofNat_toNat, List.take_succ_cons, List.take_zero]
            rfl
          · rw [List.take_succ_cons, List.take_zero, utf8Encode_cons]
            simp [utf8Encode]
            omega
        · -- multi-byte character whose trailing bytes get stripped
          obtain ⟨hc2, hf4⟩ := hmulti htnil
          refine ⟨0, ?_, by simp [utf8Encode]⟩
          rw [he, dropTrailingCont_lead_conts hb0 ht, List.take_zero]
          exact decodeLoop_lead_nil hc2 hf4
      · -- bytes of the tail remain after the first character
        have hcs : cs ≠ [] := by
          intro h
          rw [h] at hu0
          simp [utf8Encode] at hu0
        have hm : 1 ≤ n - (utf8EncodeChar c).length := by
          by_contra h
          push_neg at h
          have : n - (utf8EncodeChar c).length = 0 := by omega
          rw [this, List.take_zero] at hu0
          exact hu0 rfl
        have hne := dropTrailingCont_take_encode_ne hcs hm
        rw [dropTrailingCont_append hne]
        obtain ⟨k, hk1, hk2⟩ := ih (n - (utf8EncodeChar c).length)
        refine ⟨k + 1, ?_, ?_⟩
        · unfold utf8DecodeIgnore
          rw [decodeLoop_encodeChar, List.take_succ_cons]
          exact congrArg (c :: ·) hk1
        · rw [List.take_succ_cons, utf8Encode_cons, List.length_append]
          omega

/-- The truncated text never exceeds the byte budget. -/
theorem truncate_le (s : Str) (max_bytes : Nat) :
    (utf8Encode (truncate_text_for_comprehend s max_bytes)).length
      ≤ max_bytes := by
  unfold truncate_text_for_comprehend
  by_cases h : (utf8Encode s).length ≤ max_bytes
  · rw [if_pos h]
    exact h
  · rw [if_neg h]
    obtain ⟨k, hk1, hk2⟩ := decode_take_spec s max_bytes
    rw [hk1]
    exact hk2

/-- The truncated text is a character prefix of the input. -/
theorem truncate_take (s : Str) (max_bytes : Nat) :
    ∃ k, truncate_text_for_comprehend s max_bytes = s.take k := by
  unfold truncate_text_for_comprehend
  by_cases h : (utf8Encode s).length ≤ max_bytes
  · rw [if_pos h]
    exact ⟨s.length, (List.take_length s).symm⟩
  · rw [if_neg h]
    obtain ⟨k, hk1, _⟩ := decode_take_spec s max_bytes
    exact ⟨k, hk1⟩

/-- Texts within the byte budget pass through unmodified. -/
theorem truncate_eq_of_le {s : Str} {max_bytes : Nat}
    (h : (utf8Encode s).length ≤ max_bytes) :
    truncate_text_for_comprehend s max_bytes = s := by
  unfold truncate_text_for_comprehend
  rw [if_pos h]

/-- Truncation is idempotent. -/
theorem truncate_idem (s : Str) (max_bytes : Nat) :
    truncate_text_for_comprehend (truncate_text_for_comprehend s max_bytes)
        max_bytes
      = truncate_text_for_comprehend s max_bytes :=
  truncate_eq_of_le (truncate_le s max_bytes)

theorem utf8Encode_replicate_length (n : Nat) (c : Char) :
    (utf8Encode (List.replicate n c)).length
      = n * (utf8EncodeChar c).length := by
  induction n with
  | zero => simp [utf8Encode]
  | succ m ih =>
    rw [List.replicate_succ, utf8Encode_cons, List.length_append, ih]
    ring

theorem utf8EncodeChar_eAcute : utf8EncodeChar eAcute = [0xC3, 0xA9] := by
  decide

theorem utf8Encode_replicate_eAcute_take (k : Nat) : ∀ n : Nat,
    (utf8Encode (List.replicate n eAcute)).take (2 * k)
      = utf8Encode (List.replicate (min n k) eAcute) := by
  induction k with
  | zero =>
    intro n
    simp [utf8Encode]
  | succ k' ih =>
    intro n
    cases n with
    | zero => simp [utf8Encode]
    | succ m =>
      rw [List.replicate_succ, utf8Encode_cons, utf8EncodeChar_eAcute]
      have h2 : 2 * (k' + 1) = 2 * k' + 1 + 1 := by ring
      rw [h2, List.cons_append, List.cons_append, List.nil_append,
        List.take_succ_cons, List.take_succ_cons, ih m,
        Nat.succ_min_succ, List.replicate_succ, utf8Encode_cons,
        utf8EncodeChar_eAcute, List.cons_append, List.cons_append,
        List.nil_append]

theorem dropTrailingCont_replicate_eAcute (n : Nat) :
    dropTrailingCont (utf8Encode (List.replicate (n + 1) eAcute))
      = utf8Encode (List.replicate n eAcute) ++ [0xC3] := by
  rw [List.replicate_succ', utf8Encode_append]
  have h1 : utf8Encode [eAcute] = [0xC3, 0xA9] := by decide
  have h2 : dropTrailingCont [0xC3, 0xA9] = [0xC3] := by decide
  rw [h1, dropTrailingCont_append (by rw [h2]; simp), h2]

/-- Concrete computation of the truncation path on 2501 copies of
U+00E9 (5002 UTF-8 bytes): the 5000-byte cut falls exactly on a
character boundary, the byte-strip loop then eats the final complete
character's continuation byte, and the decode drops its lead byte, so
2499 characters remain. -/
theorem truncate_eAcute_2501 :
    truncate_text_for_comprehend (List.replicate 2501 eAcute)
        COMPREHEND_MAX_BYTES
      = List.replicate 2499 eAcute := by
  unfold truncate_text_for_comprehend COMPREHEND_MAX_BYTES
  rw [if_neg]
  · have ht : (utf8Encode (List.replicate 2501 eAcute)).take 5000
        = utf8Encode (List.replicate 2500 eAcute) := by
      have h := utf8Encode_replicate_eAcute_take 2500 2501
      norm_num at h
      exact h
    rw [ht]
    have h2500 : (2500 : Nat) = 2499 + 1 := by norm_num
    rw [h2500, dropTrailingCont_replicate_eAcute]
    unfold utf8DecodeIgnore
    rw [decodeLoop_encode_append]
    have hC3 : decodeLoop none [0xC3] = [] := by decide
    rw [hC3, List.append_nil]
  · rw [utf8Encode_replicate_length, utf8EncodeChar_eAcute]
    norm_num

/-! ## Properties of the batch dispatcher -/

theorem recordFails_eq (env : Env) (r : SQSRecord) :
    recordFails env r
      = ((r.body.getD []).isEmpty
          || !(isOkB (process_survey_message env (r.body.getD [])).1)) := by
  unfold recordFails isOkB
  rcases process_survey_message env (r.body.getD []) with ⟨res, effs⟩
  cases res <;> simp

theorem mainLoop_spec (env : Env) : ∀ recs : List SQSRecord,
    (mainLoop env recs).1 = recs.countP (fun r => !recordFails env r)
      ∧ (mainLoop env recs).2.1 = recs.countP (recordFails env) := by
  intro recs
  induction recs with
  | nil => exact ⟨rfl, rfl⟩
  | cons r rest ih =>
    obtain ⟨ih1, ih2⟩ := ih
    unfold mainLoop
    rcases hp : process_survey_message env (r.body.getD []) with ⟨res, effs⟩
    have hrf : recordFails env r
        = ((r.body.getD []).isEmpty || !(isOkB res)) := by
      rw [recordFails_eq, hp]
    by_cases hb : (r.body.getD []).isEmpty = true
    · simp [hb, hp, List.countP_cons, hrf, ih1, ih2]
    · have hb' : (r.body.getD []).isEmpty = false := by
        cases h : (r.body.getD []).isEmpty
        · rfl
        · exact absurd h hb
      cases res with
      | ok v => simp [hb', hp, List.countP_cons, hrf, ih1, ih2, isOkB]
      | error e => simp [hb', hp, List.countP_cons, hrf, ih1, ih2, isOkB]

theorem countP_not_eq (p : SQSRecord → Bool) (l : List SQSRecord) :
    l.countP (fun r => !p r) = l.length - l.countP p := by
  have h := List.length_eq_countP_add_countP p l
  have he : (fun a => decide ¬(p a = true)) = (fun a => !p a) := by
    funext a
    cases p a <;> simp
  rw [he] at h
  omega

/-! ## Properties of the per-message pipeline -/

theorem daysInMonth_pos (y m : Nat) : 1 ≤ daysInMonth y m := by
  unfold daysInMonth
  split_ifs <;> omega

/-- `relativedelta(months=12)` adds exactly one calendar year: same
month, same time of day, day clamped to the target month's length. -/
theorem relativedeltaMonths_twelve (dt : DateTime) (h : dt.Valid) :
    (relativedeltaMonths dt 12).year = dt.year + 1
      ∧ (relativedeltaMonths dt 12).month = dt.month
      ∧ (relativedeltaMonths dt 12).day
          = min dt.day (daysInMonth (dt.year + 1) dt.month)
      ∧ (relativedeltaMonths dt 12).hour = dt.hour
      ∧ (relativedeltaMonths dt 12).minute = dt.minute
      ∧ (relativedeltaMonths dt 12).second = dt.second
      ∧ (relativedeltaMonths dt 12).Valid := by
  obtain ⟨h1970, hm1, hm12, hd1, hdm, hh, hmin, hs⟩ := h
  have hns : ¬ (dt.month + 12 % 12 > 12) := by omega
  unfold relativedeltaMonths
  dsimp only
  rw [if_neg hns, if_neg hns]
  have e1 : (12 : Nat) / 12 = 1 := by norm_num
  have e2 : (12 : Nat) % 12 = 0 := by norm_num
  rw [e1, e2, Nat.add_zero]
  refine ⟨rfl, rfl, rfl, rfl, rfl, rfl, ?_⟩
  unfold DateTime.Valid
  dsimp only
  have hpos := daysInMonth_pos (dt.year + 1) dt.month
  exact ⟨by omega, by omega, by omega, le_min hd1 hpos,
    min_le_right dt.day (daysInMonth (dt.year + 1) dt.month), hh, hmin, hs⟩

/-- Full characterisation of the classify-and-store stage: the Comprehend
call always receives exactly the truncated text, the warning effect is
present exactly when the source's guard fires, and a successful run
writes one item carrying the untruncated validated text and the two
timestamp attributes derived from the environment's clock. -/
theorem classifyAndStore_spec (env : Env) (sid cid : JValue) (t : Str) :
    comprehendTexts (classifyAndStore env sid cid t).2
        = [truncate_text_for_comprehend t COMPREHEND_MAX_BYTES]
      ∧ hasWarn (classifyAndStore env sid cid t).2 = truncation_warned t
      ∧ (isOkB (classifyAndStore env sid cid t).1 = true →
          (putItems (classifyAndStore env sid cid t).2).map
              (fun it => it.surveyText) = [t]
            ∧ (putItems (classifyAndStore env sid cid t).2).map
                (fun it => (it.created_at, it.expires_at))
              = [(env.now.isoformat, natStr (calculate_expires_at env.now))]) := by
  unfold classifyAndStore
  dsimp only
  by_cases hw : truncation_warned t = true
  · rw [if_pos hw]
    split
    · simp [comprehendTexts, putItems, hasWarn, isOkB, hw]
    · simp [comprehendTexts, putItems, hasWarn, isOkB, hw]
    · split <;> simp [comprehendTexts, putItems, hasWarn, isOkB, hw]
  · have hw' : truncation_warned t = false := by
      cases h : truncation_warned t
      · rfl
      · exact absurd h hw
    rw [if_neg hw]
    split
    · simp [comprehendTexts, putItems, hasWarn, isOkB, hw']
    · simp [comprehendTexts, putItems, hasWarn, isOkB, hw']
    · split <;> simp [comprehendTexts, putItems, hasWarn, isOkB, hw']

/-- With a parsed object whose `surveyText` is a non-blank string and
truthy `id`/`customerId`, the pipeline reaches the classify-and-store
stage with the stripped text. -/
theorem process_valid_shape (env : Env) (body : Str)
    (fields : List (Str × JValue)) (raw : Str)
    (hp : env.parse body = .ok (.jobj fields))
    (hst : jlookup fields (S "surveyText") = some (.jstr raw))
    (hid : jTruthy (jlookup fields (S "id")) = true)
    (hcid : jTruthy (jlookup fields (S "customerId")) = true)
    (hne : pyStrip raw ≠ []) :
    process_survey_message env body
      = classifyAndStore env ((jlookup fields (S "id")).getD .jnull)
          ((jlookup fields (S "customerId")).getD .jnull) (pyStrip raw) := by
  unfold process_survey_message
  rw [hp]
  dsimp only
  rw [hst]
  dsimp only [getStrip]
  rw [if_neg (by simp [hid]), if_neg (by simp [hcid]),
    if_neg (by simp [List.isEmpty_iff]; exact hne)]

/-- A successful run forces the success path: the body parsed to an
object, `surveyText` was a string with non-blank strip, and the outcome
is that of the classify-and-store stage. -/
theorem process_ok_shape (env : Env) (body : Str)
    (hok : isOkB (process_survey_message env body).1 = true) :
    ∃ fields raw,
      env.parse body = .ok (.jobj fields)
      ∧ jlookup fields (S "surveyText") = some (.jstr raw)
      ∧ pyStrip raw ≠ []
      ∧ process_survey_message env body
          = classifyAndStore env ((jlookup fields (S "id")).getD .jnull)
              ((jlookup fields (S "customerId")).getD .jnull)
              (pyStrip raw) := by
  unfold process_survey_message at hok ⊢
  rcases hp : env.parse body with e | v
  · rw [hp] at hok
    simp [isOkB] at hok
  · rw [hp] at hok
    cases v with
    | jobj fields =>
      dsimp only at hok ⊢
      rcases hst : jlookup fields (S "surveyText") with _ | jv
      · rw [hst] at hok
        dsimp only [getStrip] at hok
        by_cases hid : jTruthy (jlookup fields (S "id")) = false
        · rw [if_pos hid] at hok
          simp [isOkB] at hok
        · rw [if_neg hid] at hok
          by_cases hcid : jTruthy (jlookup fields (S "customerId")) = false
          · rw [if_pos hcid] at hok
            simp [isOkB] at hok
          · rw [if_neg hcid] at hok
            rw [if_pos (by decide)] at hok
            simp [isOkB] at hok
      · cases jv with
        | jstr raw =>
          rw [hst] at hok
          dsimp only [getStrip] at hok ⊢
          by_cases hid : jTruthy (jlookup fields (S "id")) = false
          · rw [if_pos hid] at hok
            simp [isOkB] at hok
          · rw [if_neg hid] at hok ⊢
            by_cases hcid : jTruthy (jlookup fields (S "customerId")) = false
            · rw [if_pos hcid] at hok
              simp [isOkB] at hok
            · rw [if_neg hcid] at hok ⊢
              by_cases hemp : (pyStrip raw).isEmpty = true
              · rw [if_pos hemp] at hok
                simp [isOkB] at hok
              · rw [if_neg hemp] at hok ⊢
                exact ⟨fields, raw, rfl, hst,
                  fun h => hemp (List.isEmpty_iff.mpr h), rfl⟩
        | jnull =>
          rw [hst] at hok
          dsimp only [getStrip] at hok
          simp [isOkB] at hok
        | jbool b =>
          rw [hst] at hok
          dsimp only [getStrip] at hok
          simp [isOkB] at hok
        | jnum n =>
          rw [hst] at hok
          dsimp only [getStrip] at hok
          simp [isOkB] at hok
        | jarr xs =>
          rw [hst] at hok
          dsimp only [getStrip] at hok
          simp [isOkB] at hok
        | jobj fs =>
          rw [hst] at hok
          dsimp only [getStrip] at hok
          simp [isOkB] at hok
    | jnull => simp [isOkB] at hok
    | jbool b => simp [isOkB] at hok
    | jnum n => simp [isOkB] at hok
    | jstr s => simp [isOkB] at hok
    | jarr xs => simp [isOkB] at hok

/-! ## The claims -/

/-- C3: for every input text whose UTF-8 encoding exceeds 5000 bytes,
the text handed to the classification call is at most 5000 UTF-8 bytes
and is a whole-code-point string: its canonical encoding decodes back to
it exactly, so no partial trailing code point is passed on. -/
theorem claim_C3 (s : Str) (h : 5000 < (utf8Encode s).length) :
    (utf8Encode (truncate_text_for_comprehend s COMPREHEND_MAX_BYTES)).length
        ≤ 5000
      ∧ utf8DecodeIgnore (utf8Encode (truncate_text_for_comprehend s
          COMPREHEND_MAX_BYTES))
        = truncate_text_for_comprehend s COMPREHEND_MAX_BYTES :=
  ⟨truncate_le s COMPREHEND_MAX_BYTES, utf8DecodeIgnore_encode _⟩

theorem claim_C3_witness :
    5000 < (utf8Encode (List.replicate 5001 'a')).length
      ∧ ((utf8Encode (truncate_text_for_comprehend (List.replicate 5001 'a')
            COMPREHEND_MAX_BYTES)).length ≤ 5000
        ∧ utf8DecodeIgnore (utf8Encode (truncate_text_for_comprehend
            (List.replicate 5001 'a') COMPREHEND_MAX_BYTES))
          = truncate_text_for_comprehend (List.replicate 5001 'a')
              COMPREHEND_MAX_BYTES) := by
  have hlen : 5000 < (utf8Encode (List.replicate 5001 'a')).length := by
    rw [utf8Encode_replicate_length]
    have h1 : (utf8EncodeChar 'a').length = 1 := by decide
    rw [h1]
    omega
  exact ⟨hlen, claim_C3 _ hlen⟩

/-- C9: the text-size-adaptation function always returns a character
prefix of its input, and is therefore idempotent at the fixed byte
budget. -/
theorem claim_C9 (s : Str) :
    (∃ k, truncate_text_for_comprehend s COMPREHEND_MAX_BYTES = s.take k)
      ∧ truncate_text_for_comprehend
          (truncate_text_for_comprehend s COMPREHEND_MAX_BYTES)
          COMPREHEND_MAX_BYTES
        = truncate_text_for_comprehend s COMPREHEND_MAX_BYTES :=
  ⟨truncate_take s COMPREHEND_MAX_BYTES, truncate_idem s COMPREHEND_MAX_BYTES⟩

/-- C6: when the validated (stripped) survey text's UTF-8 encoding is
within 5000 bytes, the classification call receives exactly that text,
unmodified. -/
theorem claim_C6 (env : Env) (body : Str) (fields : List (Str × JValue))
    (raw : Str)
    (hp : env.parse body = .ok (.jobj fields))
    (hst : jlookup fields (S "surveyText") = some (.jstr raw))
    (hid : jTruthy (jlookup fields (S "id")) = true)
    (hcid : jTruthy (jlookup fields (S "customerId")) = true)
    (hne : pyStrip raw ≠ [])
    (hlen : (utf8Encode (pyStrip raw)).length ≤ 5000) :
    comprehendTexts (process_survey_message env body).2 = [pyStrip raw] := by
  rw [process_valid_shape env body fields raw hp hst hid hcid hne]
  have hlen' : (utf8Encode (pyStrip raw)).length ≤ COMPREHEND_MAX_BYTES := hlen
  rw [(classifyAndStore_spec env _ _ (pyStrip raw)).1,
    truncate_eq_of_le hlen']

theorem claim_C6_witness :
    comprehendTexts (process_survey_message (okEnv msgOK) (S "b")).2
      = [pyStrip (S "Great service!")] :=
  claim_C6 (okEnv msgOK) (S "b")
    [(S "id", .jstr (S "s1")), (S "customerId", .jstr (S "c1")),
      (S "surveyText", .jstr (S "Great service!"))]
    (S "Great service!") rfl rfl (by decide) (by decide) (by decide)
    (by decide)

/-- C7 (code bug): on 2501 copies of U+00E9 (5002 UTF-8 bytes) the
classifier text is genuinely truncated (to 2499 characters), yet the
warning guard of handler.py:103 is false — it compares the truncated
byte length (4998) with `len(survey_text)` (2501), a character count —
so no truncation warning is emitted by the classify-and-store stage. -/
theorem claim_C7_bug :
    truncate_text_for_comprehend (List.replicate 2501 eAcute)
        COMPREHEND_MAX_BYTES
      ≠ List.replicate 2501 eAcute
    ∧ truncation_warned (List.replicate 2501 eAcute) = false
    ∧ hasWarn (classifyAndStore (okEnv msgOK) (.jstr (S "s1"))
        (.jstr (S "c1")) (List.replicate 2501 eAcute)).2 = false := by
  have hguard : truncation_warned (List.replicate 2501 eAcute) = false := by
    unfold truncation_warned
    rw [truncate_eAcute_2501, utf8Encode_replicate_length,
      utf8EncodeChar_eAcute, List.length_replicate]
    decide
  refine ⟨?_, hguard, ?_⟩
  · rw [truncate_eAcute_2501]
    intro h
    have hl := congrArg List.length h
    rw [List.length_replicate, List.length_replicate] at hl
    omega
  · rw [(classifyAndStore_spec (okEnv msgOK) (.jstr (S "s1"))
      (.jstr (S "c1")) (List.replicate 2501 eAcute)).2.1, hguard]

/-- C1 (counterexample): the message with `surveyText = " hi "` passes
validation and the run succeeds, but the stored `surveyText` is the
stripped `"hi"`, not the original input text `" hi "`. -/
theorem claim_C1_counterexample :
    isOkB (process_survey_message (okEnv msgPadded) (S "b")).1 = true
      ∧ (putItems (process_survey_message (okEnv msgPadded) (S "b")).2).map
          (fun it => it.surveyText) = [S "hi"]
      ∧ S "hi" ≠ S " hi " :=
  ⟨by decide, by decide, by decide⟩

/-- C1 (amended): for every message that passes field validation, the
record written to storage has `surveyText` equal to the
whitespace-stripped original input text — never the truncated variant
sent to the classifier. -/
theorem claim_C1 (env : Env) (body : Str) (fields : List (Str × JValue))
    (raw : Str)
    (hp : env.parse body = .ok (.jobj fields))
    (hst : jlookup fields (S "surveyText") = some (.jstr raw))
    (hok : isOkB (process_survey_message env body).1 = true) :
    (putItems (process_survey_message env body).2).map
        (fun it => it.surveyText) = [pyStrip raw] := by
  obtain ⟨fields', raw', hp', hst', hne', heq⟩ := process_ok_shape env body hok
  rw [hp] at hp'
  injection hp' with h1
  injection h1 with h2
  subst h2
  rw [hst] at hst'
  injection hst' with h3
  injection h3 with h4
  subst h4
  rw [heq] at hok ⊢
  exact ((classifyAndStore_spec env _ _ (pyStrip raw)).2.2 hok).1

theorem claim_C1_witness :
    (putItems (process_survey_message (okEnv msgPadded) (S "b")).2).map
        (fun it => it.surveyText) = [pyStrip (S " hi ")] :=
  claim_C1 (okEnv msgPadded) (S "b")
    [(S "id", .jstr (S "s1")), (S "customerId", .jstr (S "c1")),
      (S "surveyText", .jstr (S " hi "))]
    (S " hi ") rfl rfl (by decide)

/-- C2: on every successful run the stored record's `created_at` is the
ISO-8601 form of the clock instant and its `expires_at` is the epoch
timestamp of that instant advanced by exactly 12 calendar months —
same month and time of day, year + 1, day clamped to the target month's
length. -/
theorem claim_C2 (env : Env) (body : Str) (hv : env.now.Valid)
    (hok : isOkB (process_survey_message env body).1 = true) :
    (putItems (process_survey_message env body).2).map
        (fun it => (it.created_at, it.expires_at))
      = [(env.now.isoformat,
          natStr (DateTime.timestamp (relativedeltaMonths env.now 12)))]
    ∧ (relativedeltaMonths env.now 12).year = env.now.year + 1
    ∧ (relativedeltaMonths env.now 12).month = env.now.month
    ∧ (relativedeltaMonths env.now 12).day
        = min env.now.day (daysInMonth (env.now.year + 1) env.now.month)
    ∧ (relativedeltaMonths env.now 12).hour = env.now.hour
    ∧ (relativedeltaMonths env.now 12).minute = env.now.minute
    ∧ (relativedeltaMonths env.now 12).second = env.now.second
    ∧ (relativedeltaMonths env.now 12).Valid := by
  obtain ⟨fields, raw, hp, hst, hne, heq⟩ := process_ok_shape env body hok
  rw [heq] at hok ⊢
  exact ⟨((classifyAndStore_spec env _ _ (pyStrip raw)).2.2 hok).2,
    relativedeltaMonths_twelve env.now hv⟩

theorem claim_C2_witness :
    (putItems (process_survey_message (okEnv msgOK) (S "b")).2).map
        (fun it => (it.created_at, it.expires_at))
      = [((okEnv msgOK).now.isoformat,
          natStr (DateTime.timestamp
            (relativedeltaMonths (okEnv msgOK).now 12)))]
    ∧ (relativedeltaMonths (okEnv msgOK).now 12).year
        = (okEnv msgOK).now.year + 1
    ∧ (relativedeltaMonths (okEnv msgOK).now 12).month
        = (okEnv msgOK).now.month
    ∧ (relativedeltaMonths (okEnv msgOK).now 12).day
        = min (okEnv msgOK).now.day
            (daysInMonth ((okEnv msgOK).now.year + 1) (okEnv msgOK).now.month)
    ∧ (relativedeltaMonths (okEnv msgOK).now 12).hour = (okEnv msgOK).now.hour
    ∧ (relativedeltaMonths (okEnv msgOK).now 12).minute
        = (okEnv msgOK).now.minute
    ∧ (relativedeltaMonths (okEnv msgOK).now 12).second
        = (okEnv msgOK).now.second
    ∧ (relativedeltaMonths (okEnv msgOK).now 12).Valid :=
  claim_C2 (okEnv msgOK) (S "b") (by decide) (by decide)

/-- C5: a message whose `id` is missing or falsy fails validation naming
`id`; with truthy `id` but missing or falsy `customerId` it fails naming
`customerId`; with both truthy and a `surveyText` that strips to empty
it fails naming `surveyText`.  In every case no effect (classifier call
or storage write) is performed. -/
theorem claim_C5 (env : Env) (body : Str) (fields : List (Str × JValue))
    (hp : env.parse body = .ok (.jobj fields))
    (hst : jlookup fields (S "surveyText") = none
        ∨ ∃ t, jlookup fields (S "surveyText") = some (.jstr t)) :
    (jTruthy (jlookup fields (S "id")) = false →
        process_survey_message env body
          = (.error (.validation (S "Survey 'id' is required")), []))
    ∧ (jTruthy (jlookup fields (S "id")) = true →
        jTruthy (jlookup fields (S "customerId")) = false →
        process_survey_message env body
          = (.error (.validation (S "Survey 'customerId' is required")), []))
    ∧ (jTruthy (jlookup fields (S "id")) = true →
        jTruthy (jlookup fields (S "customerId")) = true →
        getStrip (jlookup fields (S "surveyText")) = .ok [] →
        process_survey_message env body
          = (.error (.validation
              (S "Survey 'surveyText' is required and cannot be empty")),
             [])) := by
  obtain ⟨t, hgs⟩ : ∃ t, getStrip (jlookup fields (S "surveyText")) = .ok t := by
    rcases hst with h | ⟨t, h⟩
    · exact ⟨pyStrip [], by rw [h]; rfl⟩
    · exact ⟨pyStrip t, by rw [h]; rfl⟩
  unfold process_survey_message
  rw [hp]
  dsimp only
  rw [hgs]
  dsimp only
  refine ⟨?_, ?_, ?_⟩
  · intro hid
    rw [if_pos hid]
  · intro hid hcid
    rw [if_neg (by simp [hid]), if_pos hcid]
  · intro hid hcid hemp
    injection hemp with h
    rw [if_neg (by simp [hid]), if_neg (by simp [hcid]),
      if_pos (show t.isEmpty = true by rw [h]; rfl)]

theorem claim_C5_witness :
    process_survey_message (okEnv msgNoId) (S "b")
      = (.error (.validation (S "Survey 'id' is required")), []) :=
  (claim_C5 (okEnv msgNoId) (S "b")
    [(S "customerId", .jstr (S "c1")), (S "surveyText", .jstr (S "hello"))]
    rfl (Or.inr ⟨S "hello", rfl⟩)).1 rfl

/-- C4: a batch of N entries of which exactly K fail (empty body or
pipeline error) returns the fixed success status 200 with
processed = N - K, failed = K, total = N, whatever K is. -/
theorem claim_C4 (env : Env) (records : List SQSRecord) (K : Nat)
    (h : records.countP (recordFails env) = K) :
    (Handler.main env records).1
      = { statusCode := 200, processed := records.length - K, failed := K,
          total := records.length } := by
  obtain ⟨h1, h2⟩ := mainLoop_spec env records
  unfold Handler.main
  dsimp only
  rw [h1, h2, countP_not_eq, h]

theorem claim_C4_witness :
    (Handler.main (okEnv msgOK) [recWith "b", recNoBody]).1
      = { statusCode := 200, processed := 2 - 1, failed := 1, total := 2 } :=
  claim_C4 (okEnv msgOK) [recWith "b", recNoBody] 1 (by decide)

theorem mainLoop_cons (env : Env) (r : SQSRecord) (rest : List SQSRecord) :
    mainLoop env (r :: rest)
      = if (r.body.getD []).isEmpty then
          ((mainLoop env rest).1, (mainLoop env rest).2.1 + 1,
            (mainLoop env rest).2.2)
        else
          match process_survey_message env (r.body.getD []) with
          | (.ok _, effs) => ((mainLoop env rest).1 + 1,
              (mainLoop env rest).2.1, effs ++ (mainLoop env rest).2.2)
          | (.error _, effs) => ((mainLoop env rest).1,
              (mainLoop env rest).2.1 + 1, effs ++ (mainLoop env rest).2.2) := by
  conv_lhs => rw [mainLoop]

/-- C8: a record with an empty or absent body is counted as a failure,
the per-message pipeline is not invoked for it (no classifier or storage
effect is added), and the remaining records are processed as before. -/
theorem claim_C8 (env : Env) (r : SQSRecord) (rest : List SQSRecord)
    (h : r.body = none ∨ r.body = some []) :
    Handler.main env (r :: rest)
      = ({ statusCode := 200,
           processed := (Handler.main env rest).1.processed,
           failed := (Handler.main env rest).1.failed + 1,
           total := rest.length + 1 }, (Handler.main env rest).2) := by
  have hb : (r.body.getD []).isEmpty = true := by
    rcases h with h | h <;> rw [h] <;> rfl
  have hm := mainLoop_cons env r rest
  rw [if_pos hb] at hm
  unfold Handler.main
  dsimp only
  rw [hm]
  rfl

theorem claim_C8_witness :
    Handler.main (okEnv msgOK) (recNoBody :: [recWith "b"])
      = ({ statusCode := 200,
           processed := (Handler.main (okEnv msgOK) [recWith "b"]).1.processed,
           failed := (Handler.main (okEnv msgOK) [recWith "b"]).1.failed + 1,
           total := [recWith "b"].length + 1 },
         (Handler.main (okEnv msgOK) [recWith "b"]).2) :=
  claim_C8 (okEnv msgOK) recNoBody [recWith "b"] (Or.inl rfl)

/-- C10: an entry whose body is valid JSON but not an object fails with
the unexpected-error category (Python's `AttributeError` on `.get`)
before any classifier or storage call, is counted as a failure, and the
remaining records are processed as before. -/
theorem claim_C10 (env : Env) (body : Str) (v : JValue) (r : SQSRecord)
    (rest : List SQSRecord)
    (hb : r.body = some body) (hne : body ≠ [])
    (hp : env.parse body = .ok v) (hv : ∀ fs, v ≠ .jobj fs) :
    process_survey_message env body
        = (.error (.unexpected
            (S "AttributeError: object has no attribute get")), [])
      ∧ Handler.main env (r :: rest)
        = ({ statusCode := 200,
             processed := (Handler.main env rest).1.processed,
             failed := (Handler.main env rest).1.failed + 1,
             total := rest.length + 1 }, (Handler.main env rest).2) := by
  have hproc : process_survey_message env body
      = (.error (.unexpected
          (S "AttributeError: object has no attribute get")), []) := by
    unfold process_survey_message
    rw [hp]
    cases v with
    | jobj fs => exact absurd rfl (hv fs)
    | jnull => rfl
    | jbool b => rfl
    | jnum n => rfl
    | jstr s => rfl
    | jarr xs => rfl
  refine ⟨hproc, ?_⟩
  have hbody : r.body.getD [] = body := by rw [hb]; rfl
  have hbne : ¬ ((r.body.getD []).isEmpty = true) := by
    rw [hbody, List.isEmpty_iff]
    exact hne
  have hm := mainLoop_cons env r rest
  rw [if_neg hbne, hbody, hproc] at hm
  dsimp only at hm
  rw [List.nil_append] at hm
  unfold Handler.main
  dsimp only
  rw [hm]
  rfl

theorem claim_C10_witness :
    process_survey_message (okEnv msgArray) (S "x")
        = (.error (.unexpected
            (S "AttributeError: object has no attribute get")), [])
      ∧ Handler.main (okEnv msgArray) (recWith "x" :: [])
        = ({ statusCode := 200,
             processed := (Handler.main (okEnv msgArray) []).1.processed,
             failed := (Handler.main (okEnv msgArray) []).1.failed + 1,
             total := List.length ([] : List SQSRecord) + 1 },
           (Handler.main (okEnv msgArray) []).2) :=
  claim_C10 (okEnv msgArray) (S "x") msgArray (recWith "x") [] rfl
    (by decide)
    rfl
    (by
      intro fs h
      unfold msgArray at h
      exact JValue.noConfusion h)
